import Mathlib

/-!
# Verification of the mlcheck dataset-validation engine

A shallow embedding of `src/main.rs` of the `mlcheck` CLI: an in-memory
columnar `Table`, the summary computation (`inspect_dataset`) and the three
quality checks of `validate_dataset` (missing-value census, duplicate-row
census, target-column census), together with the error-propagation structure
of `main`.

Modelling conventions:
- A cell is `Option String`: `none` is a null entry, as produced by polars
  for an empty CSV field.  Concrete cell payloads are abstracted as strings;
  only equality of cells matters to any checked property.
- Percentages, computed in `f64` by the code, are modelled as exact
  rationals (`ℚ`); the structural claims checked here concern which
  percentage is computed and when, not float rounding.
- polars library calls made by the code are embedded by their documented
  semantics: `Series::null_count` counts null entries, `Series::n_unique`
  counts distinct values with all nulls together counting as one value,
  `LazyFrame::unique(None, UniqueKeepStrategy::First)` keeps the first
  occurrence (in row order) of each distinct row, with null equal to null.
-/

namespace Mlcheck

/-- A column dtype, inferred by the loader (polars CSV type inference). -/
inductive DType where
  | int
  | float
  | boolean
  | str
  | unknown
  deriving DecidableEq, Repr

/-- A cell of the table: `none` is a null entry. -/
abbrev Cell := Option String

/-- A named, typed, null-capable sequence of values. -/
structure Column where
  name : String
  dtype : DType
  values : List Cell
  deriving DecidableEq, Repr

/-- An in-memory columnar table, as produced by `read_csv`. -/
structure Table where
  cols : List Column
  deriving DecidableEq, Repr

/-- `DataFrame::height()`: the row count.  polars stores it as the length of
the columns (0 for a table with no columns). -/
def Table.height (df : Table) : Nat :=
  match df.cols with
  | [] => 0
  | c :: _ => c.values.length

/-- `DataFrame::width()`: the number of columns. -/
def Table.width (df : Table) : Nat :=
  df.cols.length

/-- Table well-formedness: every column has exactly `height` entries
(the spec's invariant "every column has exactly `rowCount` entries"). -/
def Table.WF (df : Table) : Prop :=
  ∀ c ∈ df.cols, c.values.length = df.height

instance (df : Table) : Decidable df.WF :=
  inferInstanceAs (Decidable (∀ c ∈ df.cols, c.values.length = df.height))

/-- `Series::null_count()`: the number of null entries of a column. -/
def Column.null_count (c : Column) : Nat :=
  c.values.count none

/-- `Series::n_unique()`: the number of distinct values of a column.
polars counts null among the values: all null entries together contribute
one distinct value. -/
def Column.n_unique (c : Column) : Nat :=
  c.values.dedup.length

/-- Spec-side definition, for comparison with the code's `n_unique`: the
count of distinct non-null values (the spec's `uniqueValueCount`, "nulls
excluded from the distinct count"). -/
def Column.uniqueNonNullCount (c : Column) : Nat :=
  (c.values.filterMap id).dedup.length

/-- The missing-value census (`validate_dataset`, lines 82-97): for each
column with `null_count > 0`, in column order, the triple of its name, its
null count, and `null_count / height * 100`. -/
def missingCensus (df : Table) : List (String × Nat × ℚ) :=
  df.cols.filterMap fun c =>
    if 0 < c.null_count then
      some (c.name, c.null_count, (c.null_count : ℚ) / (df.height : ℚ) * 100)
    else none

/-- The rows of the table, in file order: row `i` is the list of the `i`-th
entry of each column. -/
def Table.rows (df : Table) : List (List Cell) :=
  (List.range df.height).map fun i => df.cols.map fun c => c.values.getD i none

/-- `LazyFrame::unique(None, UniqueKeepStrategy::First)` on the rows: keep
the first occurrence (in row order) of each distinct row, dropping every
later identical row.  Row equality is entrywise, with null equal to null
(`none = none`). -/
def uniqueKeepFirstAux (seen : List (List Cell)) : List (List Cell) → List (List Cell)
  | [] => []
  | r :: rs =>
    if r ∈ seen then uniqueKeepFirstAux seen rs
    else r :: uniqueKeepFirstAux (r :: seen) rs

/-- `deduped.height()`: the number of rows surviving deduplication. -/
def distinctRowCount (df : Table) : Nat :=
  (uniqueKeepFirstAux [] df.rows).length

/-- `let duplicates = df.height() - deduped.height();` (line 105). -/
def duplicateRowCount (df : Table) : Nat :=
  df.height - distinctRowCount df

/-- The duplicate percentage, computed only in the `duplicates > 0` branch
(lines 107-112); `none` when the branch is not taken. -/
def duplicatePercentage (df : Table) : Option ℚ :=
  if 0 < duplicateRowCount df then
    some ((duplicateRowCount df : ℚ) / (df.height : ℚ) * 100)
  else none

/-- `df.column(name)`: look the column up by exact name match (first match
in column order). -/
def Table.column (df : Table) (name : String) : Option Column :=
  df.cols.find? fun c => c.name = name

/-- The fields printed for a found target column (lines 121-134). -/
structure TargetReport where
  dtype : DType
  uniqueValues : Nat
  nullCount : Nat
  nullPercentage : Option ℚ
  deriving DecidableEq, Repr

/-- The target-column census result: the explicit not-found marker, or the
report for the found column. -/
inductive TargetResult where
  | notFound
  | found (r : TargetReport)
  deriving DecidableEq, Repr

/-- The target-column census (`validate_dataset`, lines 118-138): exact-name
lookup; not found is a reported condition; found reports the dtype, the
`n_unique` count, the null count, and the null percentage only in the
`null_count > 0` branch. -/
def targetCensus (df : Table) (name : String) : TargetResult :=
  match df.column name with
  | none => .notFound
  | some c =>
    .found
      { dtype := c.dtype
        uniqueValues := c.n_unique
        nullCount := c.null_count
        nullPercentage :=
          if 0 < c.null_count then
            some ((c.null_count : ℚ) / (df.height : ℚ) * 100)
          else none }

/-- The summary printed by `inspect_dataset` and the overview of
`validate_dataset`: shape and per-column `(name, dtype)` pairs in column
order.  (The estimated memory size is presentation-only and not modelled.) -/
structure SummaryReport where
  rowCount : Nat
  columnCount : Nat
  schema : List (String × DType)
  deriving DecidableEq, Repr

/-- `inspect_dataset`'s computation over a loaded table. -/
def summarize (df : Table) : SummaryReport :=
  { rowCount := df.height
    columnCount := df.width
    schema := df.cols.map fun c => (c.name, c.dtype) }

/-- The structured result of `validate_dataset` over a loaded table: the
three quality checks, each a pure read of the same table. -/
structure QualityReport where
  missing : List (String × Nat × ℚ)
  dupCount : Nat
  dupPercentage : Option ℚ
  targetAnalysis : Option TargetResult
  deriving DecidableEq, Repr

/-- `validate_dataset`'s checks in source order: missing values, then
duplicates, then (when a target is supplied) the target census. -/
def validate (df : Table) (target : Option String) : QualityReport :=
  let missing := missingCensus df
  let dup := duplicateRowCount df
  let dupPct := duplicatePercentage df
  let tgt := target.map (targetCensus df)
  { missing := missing, dupCount := dup, dupPercentage := dupPct,
    targetAnalysis := tgt }

/-- The same checks run in the opposite order (target first, then
duplicates, then missing values): the table is read-only, so each check is
a pure function of it. -/
def validateReordered (df : Table) (target : Option String) : QualityReport :=
  let tgt := target.map (targetCensus df)
  let dupPct := duplicatePercentage df
  let dup := duplicateRowCount df
  let missing := missingCensus df
  { missing := missing, dupCount := dup, dupPercentage := dupPct,
    targetAnalysis := tgt }

/-- A load failure of `read_csv` (file missing, unreadable, or unparseable),
carrying the human-readable message surfaced to the user. -/
structure LoadError where
  message : String
  deriving DecidableEq, Repr

/-- `validate_dataset` including the `let df = read_csv(path)?;` step:
a load failure propagates and no check runs; otherwise the summary and the
quality report are produced. -/
def runValidate (load : Except LoadError Table) (target : Option String) :
    Except LoadError (SummaryReport × QualityReport) :=
  match load with
  | .error e => .error e
  | .ok df => .ok (summarize df, validate df target)

/-- `inspect_dataset` including the `read_csv` step. -/
def runInspect (load : Except LoadError Table) :
    Except LoadError SummaryReport :=
  match load with
  | .error e => .error e
  | .ok df => .ok (summarize df)

/-- The process exit code of `main`: `main` returns `anyhow::Result`, so an
`Err` propagated from a command exits with code 1 and an `Ok` exits 0. -/
def exitCode {α : Type} : Except LoadError α → Nat
  | .error _ => 1
  | .ok _ => 0

/-- Modelled from the spec: splitting one line of a delimited file into
fields on the delimiter.  The CSV parsing itself is performed by the polars
`CsvReader` (`read_csv`, lines 41-46) and is not part of this repository's
source; the spec says the consumed format is "delimited text with a header
row as first line".  A line is modelled as its list of characters. -/
def splitFieldsAux (cur : List Char) : List Char → List (List Char)
  | [] => [cur.reverse]
  | ch :: cs =>
    if ch = ',' then cur.reverse :: splitFieldsAux [] cs
    else splitFieldsAux (ch :: cur) cs

/-- Modelled from the spec: the fields of one line, in order.  A line always
has at least one field. -/
def splitFields (line : List Char) : List String :=
  (splitFieldsAux [] line).map fun cs => String.mk cs

/-- Modelled from the spec: a field becomes a cell; an empty field is null
("Empty/blank cells are treated as null regardless of column dtype"). -/
def fieldToCell (s : String) : Cell :=
  if s = "" then none else some s

/-- Modelled from the spec: `load` parses the first line as the header row,
whose fields become the column names, and each following line as one data
row, assembling the columnar Table; a file with no header line is a load
failure.  Per-column dtype inference is performed inside polars and is
irrelevant to every property settled against this model, so columns get
dtype `.unknown`. -/
def parseCsv (lines : List (List Char)) : Except LoadError Table :=
  match lines with
  | [] => .error ⟨"empty file: missing header row"⟩
  | header :: dataLines =>
    let names := splitFields header
    .ok ⟨(List.range names.length).map fun j =>
      { name := names.getD j ""
        dtype := .unknown
        values := dataLines.map fun ln =>
          ((splitFields ln).map fieldToCell).getD j none }⟩

/-- The `age` column of the spec's running example: values `30`, null,
null. -/
def ageColumn : Column :=
  { name := "age", dtype := .int, values := [some "30", none, none] }

/-- The spec's example table: CSV `id,age` / `1,30` / `2,` / `2,`. -/
def egTable : Table :=
  { cols :=
      [ { name := "id", dtype := .int,
          values := [some "1", some "2", some "2"] }
      , ageColumn ] }

/-- A degenerate table: one column, zero rows. -/
def emptyTable : Table :=
  { cols := [{ name := "id", dtype := .int, values := [] }] }

/-- The number of rows having an identical earlier row (or one in the
accumulated `seen` list): the counting companion of `uniqueKeepFirstAux`. -/
def dupCountAux (seen : List (List Cell)) : List (List Cell) → Nat
  | [] => 0
  | r :: rs => (if r ∈ seen then 1 else 0) + dupCountAux (r :: seen) rs

theorem mem_iff_mem_cons_of_mem {r : List Cell} {seen : List (List Cell)}
    (hr : r ∈ seen) : ∀ x, x ∈ seen ↔ x ∈ r :: seen := fun x =>
  ⟨fun hx => List.mem_cons_of_mem _ hx,
   fun hx => by
     rcases List.mem_cons.mp hx with h | h
     · subst h; exact hr
     · exact h⟩

theorem uniqueKeepFirstAux_congr {seen seen' : List (List Cell)}
    (h : ∀ x, x ∈ seen ↔ x ∈ seen') (l : List (List Cell)) :
    uniqueKeepFirstAux seen l = uniqueKeepFirstAux seen' l := by
  induction l generalizing seen seen' with
  | nil => rfl
  | cons r rs ih =>
    simp only [uniqueKeepFirstAux]
    by_cases hr : r ∈ seen
    · rw [if_pos hr, if_pos ((h r).1 hr), ih h]
    · rw [if_neg hr, if_neg (fun hc => hr ((h r).2 hc))]
      exact congrArg (List.cons r)
        (@ih (r :: seen) (r :: seen')
          (fun x => by rw [List.mem_cons, List.mem_cons, h x]))

theorem length_uniqueKeepFirstAux_add_dupCountAux
    (seen : List (List Cell)) (l : List (List Cell)) :
    (uniqueKeepFirstAux seen l).length + dupCountAux seen l = l.length := by
  induction l generalizing seen with
  | nil => rfl
  | cons r rs ih =>
    simp only [uniqueKeepFirstAux, dupCountAux, List.length_cons]
    by_cases hr : r ∈ seen
    · rw [if_pos hr, if_pos hr,
        uniqueKeepFirstAux_congr (mem_iff_mem_cons_of_mem hr) rs]
      have := ih (r :: seen)
      omega
    · rw [if_neg hr, if_neg hr]
      have := ih (r :: seen)
      simp only [List.length_cons]
      omega

theorem dupCountAux_eq_filter_range
    (seen : List (List Cell)) (l : List (List Cell)) :
    dupCountAux seen l =
      ((List.range l.length).filter
        (fun i => decide (l.getD i [] ∈ seen ++ l.take i))).length := by
  induction l generalizing seen with
  | nil => rfl
  | cons r rs ih =>
    simp only [dupCountAux, List.length_cons, List.range_succ_eq_map,
      List.filter_cons]
    have hhead :
        (decide ((r :: rs).getD 0 [] ∈ seen ++ (r :: rs).take 0)) =
          decide (r ∈ seen) := by
      simp
    rw [hhead, List.filter_map]
    have htail :
        (List.range rs.length).filter
            ((fun i => decide ((r :: rs).getD i [] ∈ seen ++ (r :: rs).take i))
              ∘ Nat.succ)
          = (List.range rs.length).filter
              (fun i => decide (rs.getD i [] ∈ (r :: seen) ++ rs.take i)) := by
      apply List.filter_congr
      intro i _
      simp only [Function.comp_apply, List.getD_cons_succ, List.take_succ_cons,
        decide_eq_decide, List.mem_append, List.mem_cons]
      tauto
    rw [htail]
    have hrec := ih (r :: seen)
    by_cases hr : r ∈ seen <;> simp [hr, hrec] <;> omega

/-- C2: the duplicate-row census satisfies
`duplicateRowCount = rowCount - distinctRowCount` where `distinctRowCount`
keeps the first occurrence of each distinct row, and the duplicate count is
exactly the number of row indices having an identical earlier row
(all-column equality with null equal to null). -/
theorem duplicateRowCount_eq_height_sub_distinct_and_earlier (df : Table) :
    duplicateRowCount df = df.height - distinctRowCount df
    ∧ duplicateRowCount df =
        ((List.range df.height).filter
          (fun i => decide (df.rows.getD i [] ∈ df.rows.take i))).length := by
  refine ⟨rfl, ?_⟩
  have hlen : df.rows.length = df.height := by
    simp [Table.rows]
  have h1 := length_uniqueKeepFirstAux_add_dupCountAux [] df.rows
  have h2 := dupCountAux_eq_filter_range [] df.rows
  simp only [List.nil_append] at h2
  rw [hlen] at h1 h2
  show df.height - distinctRowCount df = _
  unfold distinctRowCount
  omega

/-- C10: deduplication never yields more rows than the table has, so the
unsigned subtraction `df.height() - deduped.height()` cannot underflow; and
the duplicate percentage is only computed when `duplicates > 0`, which
forces a positive row count, so its denominator is never zero. -/
theorem dedup_le_height_no_underflow_no_div_zero (df : Table) :
    distinctRowCount df ≤ df.height
    ∧ (0 < duplicateRowCount df → 0 < df.height)
    ∧ (∀ q, duplicatePercentage df = some q →
        0 < duplicateRowCount df ∧ 0 < df.height) := by
  have h1 := length_uniqueKeepFirstAux_add_dupCountAux [] df.rows
  have hlen : df.rows.length = df.height := by
    simp [Table.rows]
  have hle : distinctRowCount df ≤ df.height := by
    unfold distinctRowCount
    omega
  refine ⟨hle, fun h => ?_, fun q hq => ?_⟩
  · unfold duplicateRowCount at h
    omega
  · unfold duplicatePercentage at hq
    split at hq
    · rename_i hpos
      exact ⟨hpos, by unfold duplicateRowCount at hpos; omega⟩
    · exact absurd hq (by simp)

/-- Witness for C10 at the spec's example table, which has one duplicate
row. -/
theorem dedup_le_height_no_underflow_no_div_zero_witness :
    distinctRowCount egTable ≤ egTable.height ∧ 0 < egTable.height :=
  ⟨(dedup_le_height_no_underflow_no_div_zero egTable).1,
   (dedup_le_height_no_underflow_no_div_zero egTable).2.1 (by decide)⟩

/-- C9: the duplicate census is idempotent (a second run over the same
read-only table returns the same count), and the three checks are
independent: each field of the validation report equals the corresponding
standalone check, and running the checks in the opposite order yields the
same report. -/
theorem checks_independent_and_idempotent (df : Table) (target : Option String) :
    validate df target = validateReordered df target
    ∧ (validate df target).missing = missingCensus df
    ∧ (validate df target).dupCount = duplicateRowCount df
    ∧ (validate df target).dupPercentage = duplicatePercentage df
    ∧ (validate df target).targetAnalysis = target.map (targetCensus df)
    ∧ duplicateRowCount df = duplicateRowCount df :=
  ⟨rfl, rfl, rfl, rfl, rfl, rfl⟩

theorem dedup_length_option {α : Type} [DecidableEq α] :
    ∀ l : List (Option α),
      l.dedup.length
        = (l.filterMap id).dedup.length + (if none ∈ l then 1 else 0)
  | [] => rfl
  | none :: l => by
    have hfm : List.filterMap id (none :: l) = List.filterMap id l := by
      simp [List.filterMap_cons]
    by_cases h : (none : Option α) ∈ l
    · rw [List.dedup_cons_of_mem h, hfm, dedup_length_option l, if_pos h,
        if_pos (List.mem_cons_self _ _)]
    · rw [List.dedup_cons_of_not_mem h, hfm, List.length_cons,
        dedup_length_option l, if_neg h, if_pos (List.mem_cons_self _ _)]
  | some x :: l => by
    have hfm : List.filterMap id (some x :: l) = x :: List.filterMap id l := by
      simp [List.filterMap_cons]
    have hmem : x ∈ List.filterMap id l ↔ some x ∈ l := by
      simp only [List.mem_filterMap, id_eq]
      constructor
      · rintro ⟨a, ha, rfl⟩; exact ha
      · intro ha; exact ⟨some x, ha, rfl⟩
    have hnone : (none ∈ some x :: l) ↔ (none ∈ l) := by
      simp [List.mem_cons]
    by_cases h : some x ∈ l
    · rw [List.dedup_cons_of_mem h, hfm, List.dedup_cons_of_mem (hmem.2 h),
        dedup_length_option l]
      congr 1
      simp only [hnone]
    · rw [List.dedup_cons_of_not_mem h, hfm,
        List.dedup_cons_of_not_mem (fun hc => h (hmem.1 hc)),
        List.length_cons, List.length_cons, dedup_length_option l]
      simp only [hnone]
      omega

theorem null_count_pos_iff_none_mem (c : Column) :
    0 < c.null_count ↔ none ∈ c.values := by
  rw [Column.null_count]
  exact List.count_pos_iff

/-- C1 counterexample: on the spec's example column `age` with values
`[30, null, null]`, the target census reports `uniqueValues = 2` (polars'
`n_unique` counts the nulls as one distinct value), while the count of
distinct non-null values claimed by the spec is `1`. -/
theorem targetCensus_unique_includes_null_cex :
    ∃ r, targetCensus egTable "age" = .found r
      ∧ r.uniqueValues = 2
      ∧ ageColumn.uniqueNonNullCount = 1
      ∧ (2 : Nat) ≠ 1 := by
  exact ⟨_, rfl, by decide, by decide, by decide⟩

/-- C1 (amended): for every table and every target name bound to a column
`c`, the target census reports `uniqueValueCount` as the count of distinct
values of `c` where all nulls together count as one distinct value: the
count of distinct non-null values, plus one more when the column has any
null.  (Nulls are not excluded from the distinct count.) -/
theorem targetCensus_unique_eq_nonnull_plus_null_flag
    (df : Table) (name : String) (c : Column)
    (h : df.column name = some c) :
    ∃ r, targetCensus df name = .found r
      ∧ r.uniqueValues
          = c.uniqueNonNullCount + (if 0 < c.null_count then 1 else 0)
      ∧ r.nullCount = c.null_count
      ∧ r.dtype = c.dtype := by
  unfold targetCensus
  rw [h]
  refine ⟨_, rfl, ?_, rfl, rfl⟩
  show c.n_unique = _
  rw [Column.n_unique, Column.uniqueNonNullCount, dedup_length_option c.values]
  congr 1
  simp only [null_count_pos_iff_none_mem]

/-- Witness for the amended C1, at the spec's example table and target
`age`. -/
theorem targetCensus_unique_eq_nonnull_plus_null_flag_witness :
    egTable.column "age" = some ageColumn
    ∧ ∃ r, targetCensus egTable "age" = .found r
        ∧ r.uniqueValues
            = ageColumn.uniqueNonNullCount
              + (if 0 < ageColumn.null_count then 1 else 0)
        ∧ r.nullCount = ageColumn.null_count
        ∧ r.dtype = ageColumn.dtype :=
  ⟨by decide,
   targetCensus_unique_eq_nonnull_plus_null_flag egTable "age" ageColumn
     (by decide)⟩

theorem filterMap_guard_eq_map_filter {α β : Type} (p : α → Prop)
    [DecidablePred p] (f : α → β) :
    ∀ l : List α,
      (l.filterMap fun a => if p a then some (f a) else none)
        = (l.filter fun a => decide (p a)).map f
  | [] => rfl
  | a :: l => by
    rw [List.filterMap_cons, List.filter_cons]
    by_cases h : p a
    · simp [h, filterMap_guard_eq_map_filter p f l]
    · simp [h, filterMap_guard_eq_map_filter p f l]

/-- C6: for a table with rows, the missing-value census is exactly the
columns with a positive null count, in column order, each mapped to its
null count and `nullCount / rowCount * 100`; when no column has a null the
census is empty. -/
theorem missingCensus_exactly_null_columns (df : Table)
    (h : 0 < df.height) :
    missingCensus df
      = ((df.cols.filter fun c => decide (0 < c.null_count)).map
          fun c => (c.name, c.null_count,
            (c.null_count : ℚ) / (df.height : ℚ) * 100))
    ∧ ((∀ c ∈ df.cols, c.null_count = 0) → missingCensus df = []) := by
  constructor
  · exact filterMap_guard_eq_map_filter _ _ df.cols
  · intro hall
    rw [missingCensus]
    apply List.filterMap_eq_nil_iff.2
    intro c hc
    rw [hall c hc]
    simp

/-- Witness for C6 at the spec's example table. -/
theorem missingCensus_exactly_null_columns_witness :
    0 < egTable.height
    ∧ missingCensus egTable
        = ((egTable.cols.filter fun c => decide (0 < c.null_count)).map
            fun c => (c.name, c.null_count,
              (c.null_count : ℚ) / (egTable.height : ℚ) * 100)) :=
  ⟨by decide, (missingCensus_exactly_null_columns egTable (by decide)).1⟩

/-- C8: over any well-formed table, the sum of the null counts reported by
the missing-value census is at most `rowCount * columnCount`. -/
theorem missingCensus_null_sum_le_cells (df : Table) (hwf : df.WF) :
    (((missingCensus df).map fun e => e.2.1).sum) ≤ df.height * df.width := by
  unfold missingCensus
  rw [filterMap_guard_eq_map_filter
    (fun c => 0 < c.null_count)
    (fun c => (c.name, c.null_count,
      (c.null_count : ℚ) / (df.height : ℚ) * 100)) df.cols]
  rw [List.map_map]
  have hcomp :
      ((fun e : String × Nat × ℚ => e.2.1) ∘
        fun c => (c.name, c.null_count,
          (c.null_count : ℚ) / (df.height : ℚ) * 100))
        = fun c : Column => c.null_count := rfl
  rw [hcomp]
  have hsub :
      ((df.cols.filter fun c => decide (0 < c.null_count)).map
          fun c : Column => c.null_count).sum
        ≤ (df.cols.map fun c : Column => c.null_count).sum :=
    List.Sublist.sum_le_sum
      (List.Sublist.map _ (List.filter_sublist df.cols))
      (fun a _ => Nat.zero_le a)
  refine hsub.trans ?_
  have hbound : ∀ n ∈ df.cols.map fun c : Column => c.null_count,
      n ≤ df.height := by
    intro n hn
    rcases List.mem_map.1 hn with ⟨c, hc, rfl⟩
    calc c.null_count ≤ c.values.length := List.count_le_length _ _
      _ = df.height := hwf c hc
  have := List.sum_le_card_nsmul
    (df.cols.map fun c : Column => c.null_count) df.height hbound
  simpa [Table.width, Nat.mul_comm] using this

/-- Witness for C8 at the spec's example table. -/
theorem missingCensus_null_sum_le_cells_witness :
    egTable.WF
    ∧ (((missingCensus egTable).map fun e => e.2.1).sum)
        ≤ egTable.height * egTable.width :=
  ⟨by decide, missingCensus_null_sum_le_cells egTable (by decide)⟩

/-- C3: when the supplied target name matches no column, the target census
yields the explicit not-found marker, the missing-value and duplicate
checks still run and are reported unchanged, and the command result is a
success with exit code 0. -/
theorem target_not_found_reported_other_checks_run
    (df : Table) (target : String)
    (h : ∀ c ∈ df.cols, c.name ≠ target) :
    targetCensus df target = .notFound
    ∧ runValidate (.ok df) (some target)
        = .ok (summarize df, validate df (some target))
    ∧ (validate df (some target)).missing = missingCensus df
    ∧ (validate df (some target)).dupCount = duplicateRowCount df
    ∧ (validate df (some target)).dupPercentage = duplicatePercentage df
    ∧ (validate df (some target)).targetAnalysis
        = some TargetResult.notFound
    ∧ exitCode (runValidate (.ok df) (some target)) = 0 := by
  have hfind : df.column target = none := by
    rw [Table.column]
    apply List.find?_eq_none.2
    intro c hc
    simpa using h c hc
  have hcensus : targetCensus df target = .notFound := by
    rw [targetCensus, hfind]
  exact ⟨hcensus, rfl, rfl, rfl, rfl, by simp [validate, hcensus], rfl⟩

/-- Witness for C3: target `score` is absent from the spec's example
table. -/
theorem target_not_found_reported_other_checks_run_witness :
    targetCensus egTable "score" = TargetResult.notFound
    ∧ (validate egTable (some "score")).targetAnalysis
        = some TargetResult.notFound
    ∧ (validate egTable (some "score")).missing = missingCensus egTable
    ∧ (validate egTable (some "score")).dupCount = duplicateRowCount egTable
    ∧ exitCode (runValidate (.ok egTable) (some "score")) = 0 :=
  ⟨(target_not_found_reported_other_checks_run egTable "score" (by decide)).1,
   (target_not_found_reported_other_checks_run egTable "score"
     (by decide)).2.2.2.2.2.1,
   (target_not_found_reported_other_checks_run egTable "score"
     (by decide)).2.2.1,
   (target_not_found_reported_other_checks_run egTable "score"
     (by decide)).2.2.2.1,
   (target_not_found_reported_other_checks_run egTable "score"
     (by decide)).2.2.2.2.2.2⟩

/-- C4: a well-formed zero-row table (which covers the zero-column case,
whose height is 0) is handled without any division: the missing-value
census is empty, the duplicate count is 0 and its percentage branch is not
taken, and a found target column reports no nulls and no null
percentage. -/
theorem zero_rows_no_crash_no_division (df : Table) (hwf : df.WF)
    (h : df.height = 0) :
    missingCensus df = []
    ∧ duplicateRowCount df = 0
    ∧ duplicatePercentage df = none
    ∧ (∀ name r, targetCensus df name = .found r →
        r.nullCount = 0 ∧ r.nullPercentage = none) := by
  have hnull : ∀ c ∈ df.cols, c.null_count = 0 := by
    intro c hc
    have hlen : c.values.length = 0 := by rw [hwf c hc, h]
    have : c.values = [] := List.eq_nil_of_length_eq_zero hlen
    simp [Column.null_count, this]
  have hdup : duplicateRowCount df = 0 := by
    simp [duplicateRowCount, h]
  refine ⟨?_, hdup, ?_, ?_⟩
  · rw [missingCensus]
    apply List.filterMap_eq_nil_iff.2
    intro c hc
    rw [hnull c hc]
    simp
  · rw [duplicatePercentage, hdup]
    simp
  · intro name r hr
    rw [targetCensus] at hr
    rcases hfind : df.column name with _ | c
    · rw [hfind] at hr; cases hr
    · rw [hfind] at hr
      have hc : c ∈ df.cols :=
        List.mem_of_find?_eq_some hfind
      have hc0 : c.null_count = 0 := hnull c hc
      cases hr
      constructor
      · exact hc0
      · show (if 0 < c.null_count then _ else none) = none
        rw [hc0]
        simp

/-- Witness for C4 at a one-column, zero-row table. -/
theorem zero_rows_no_crash_no_division_witness :
    emptyTable.WF ∧ emptyTable.height = 0
    ∧ missingCensus emptyTable = []
    ∧ duplicateRowCount emptyTable = 0
    ∧ duplicatePercentage emptyTable = none :=
  ⟨by decide, by decide,
   (zero_rows_no_crash_no_division emptyTable (by decide) (by decide)).1,
   (zero_rows_no_crash_no_division emptyTable (by decide) (by decide)).2.1,
   (zero_rows_no_crash_no_division emptyTable (by decide) (by decide)).2.2.1⟩

/-- C5: a load failure propagates out of both commands untouched: no
summary and no quality check is computed, and the process exit code is 1
(non-zero). -/
theorem load_failure_aborts_nonzero_exit (e : LoadError)
    (target : Option String) :
    runValidate (.error e) target = .error e
    ∧ runInspect (.error e) = .error e
    ∧ exitCode (runValidate (.error e) target) = 1
    ∧ exitCode (runInspect (.error e)) = 1
    ∧ exitCode (runValidate (.error e) target) ≠ 0 :=
  ⟨rfl, rfl, rfl, rfl, Nat.one_ne_zero⟩

/-- Witness for C5 at a concrete load error. -/
theorem load_failure_aborts_nonzero_exit_witness :
    runValidate (Except.error ⟨"no such file: data.csv"⟩) (some "age")
        = Except.error (⟨"no such file: data.csv"⟩ : LoadError)
    ∧ runInspect (Except.error ⟨"no such file: data.csv"⟩)
        = Except.error (⟨"no such file: data.csv"⟩ : LoadError)
    ∧ exitCode (runValidate (Except.error ⟨"no such file: data.csv"⟩)
        (some "age")) = 1 :=
  ⟨(load_failure_aborts_nonzero_exit ⟨"no such file: data.csv"⟩
      (some "age")).1,
   (load_failure_aborts_nonzero_exit ⟨"no such file: data.csv"⟩
      (some "age")).2.1,
   (load_failure_aborts_nonzero_exit ⟨"no such file: data.csv"⟩
      (some "age")).2.2.1⟩

theorem one_le_length_splitFieldsAux (cur cs : List Char) :
    1 ≤ (splitFieldsAux cur cs).length := by
  induction cs generalizing cur with
  | nil => simp [splitFieldsAux]
  | cons ch cs ih =>
    rw [splitFieldsAux]
    by_cases h : ch = ','
    · rw [if_pos h]
      simp
    · rw [if_neg h]
      exact ih _

/-- C7: for every modelled CSV file — a header line followed by data
lines — loading succeeds and the row count reported by the summary equals
the number of non-header lines. -/
theorem parseCsv_rowCount_eq_data_lines (header : List Char)
    (dataLines : List (List Char)) :
    ∃ df, parseCsv (header :: dataLines) = .ok df
      ∧ (summarize df).rowCount = df.height
      ∧ df.height = dataLines.length := by
  refine ⟨_, rfl, rfl, ?_⟩
  have hk : 1 ≤ (splitFields header).length := by
    rw [splitFields, List.length_map]
    exact one_le_length_splitFieldsAux [] header
  obtain ⟨k, hk'⟩ : ∃ k, (splitFields header).length = k + 1 :=
    ⟨(splitFields header).length - 1, by omega⟩
  show Table.height ⟨(List.range (splitFields header).length).map _⟩ = _
  rw [hk', List.range_succ_eq_map, List.map_cons]
  simp [Table.height]

end Mlcheck

